import Mathlib

/-!
Verification of the core marketplace logic of `lively_marketplace_app.py`
(Lively Marketplace: product purchases, debt investments, payout requests).

Modelling conventions:
* Integer money columns (`*_cents`, Python `int`) are `ℤ`.
* The float rate columns and the float arithmetic of the inline
  rate-adjustment block are modelled exactly over `ℚ`; the decimal
  constants 0.80, 0.40, 0.15, 0.05, 0.25, 0.50, 0.0001 appear as the
  rationals 4/5, 2/5, 3/20, 1/20, 1/4, 1/2, 1/10000.
* The `Decimal` arithmetic of `calculate_commission_cents` is exact, so it
  is modelled exactly over `ℤ` (see that definition).
* Database rows are Lean structures; presentation-only columns (image URL,
  description, timestamps) and the password hash are omitted.
* Request handlers become functions
  `AppState → args → AppState × Option MarketError`: a `(s, some e)`
  result is an early `flash` + `redirect` abort, which leaves the session
  state untouched because those paths return before any assignment;
  `(s2, none)` is a completed handler ending in `db.session.commit()`.
-/

/-- Error outcomes surfaced by the handlers via `flash` messages:
"Invalid amount", "Insufficient balance", "Cannot buy your own product",
and `get_or_404` misses. -/
inductive MarketError where
  | InvalidAmount
  | InsufficientFunds
  | SelfDealing
  | NotFound
deriving DecidableEq

/-- Row of the `User` model: `username`, `balance_cents` (column default 0)
and the admin flag (lines 71-78 of the source). -/
structure User where
  username : String
  balance_cents : ℤ
  admin_flag : Bool
deriving DecidableEq

/-- Method `User.credit` (line 84-85): unconditionally adds `cents` to the
balance; the Python `or 0` only guards a NULL column, which the total
model field already rules out. -/
def User.credit (u : User) (cents : ℤ) : User :=
  { u with balance_cents := u.balance_cents + cents }

/-- Method `User.debit` (line 86-87): unconditionally subtracts `cents`;
the method itself performs no balance check (callers check first). -/
def User.debit (u : User) (cents : ℤ) : User :=
  { u with balance_cents := u.balance_cents - cents }

/-- Successful branch of the `register` handler (lines 236-245): a fresh
`User` row, whose balance starts at the column default 0, credited with
1000 cents ("$10 start for demo"). -/
def register_user (username : String) : User :=
  (User.mk username 0 false).credit 1000

/-- Helper `calculate_commission_cents` (lines 148-149): the source computes
`int((Decimal(amount_cents) * PLATFORM_COMMISSION_PERCENT / 100).quantize(Decimal("1.")))`
with the default `PLATFORM_COMMISSION_PERCENT = 5.0`.  The `Decimal`
arithmetic is exact here, so the value being quantized is exactly
`amount_cents / 20`, and `quantize(Decimal("1."))` rounds it to an integer
with the default `ROUND_HALF_EVEN` mode.  Writing `amount_cents = 20 q + r`
with `0 ≤ r < 20` (Euclidean division), that rounding is reproduced below:
round down for `r < 10`, up for `r > 10`, and to the even neighbour at the
exact half `r = 10`. -/
def calculate_commission_cents (amount_cents : ℤ) : ℤ :=
  let q := amount_cents / 20
  let r := amount_cents % 20
  if r < 10 then q
  else if 10 < r then q + 1
  else if q % 2 = 0 then q else q + 1

/-- Inline rate-adjustment block of the `debt_buy` handler (lines 469-482):
the seven-branch chain on the post-update funding fraction `r`, with its
`min(1.0, ...)` clamps on the three raising branches and
`max(0.0001, ...)` clamps on the remaining four branches, factored out as
a function of the current rate and `r`. -/
def next_rate (current : ℚ) (r : ℚ) : ℚ :=
  if r < 1/100 then min 1 (current + 4/5)
  else if r < 1/20 then min 1 (current + 2/5)
  else if r < 1/5 then min 1 (current + 3/20)
  else if r < 1/2 then max (1/10000) (current + 1/20)
  else if r < 1 then max (1/10000) (current - 1/20)
  else if r < 3/2 then max (1/10000) (current - 1/4)
  else max (1/10000) (current - 1/2)

/-- Row of the `DebtListing` model (lines 99-109; timestamp omitted). -/
structure DebtListing where
  id : ℕ
  title : String
  principal_cents : ℤ
  interest_rate_percent : ℚ
  seller_id : ℕ
  target_amount_cents : ℤ
  total_invested_cents : ℤ
  current_rate_percent : ℚ
deriving DecidableEq

/-- Row of the `Product` model (lines 89-97; description, image URL and
timestamp omitted). -/
structure Product where
  id : ℕ
  title : String
  price_cents : ℤ
  seller_id : ℕ
deriving DecidableEq

/-- Row of the `DebtPosition` model (lines 111-119; timestamp omitted). -/
structure DebtPosition where
  owner_id : ℕ
  debt_id : ℕ
  principal_cents : ℤ
  active : Bool
deriving DecidableEq

/-- Row of the `Order` model (lines 121-129; timestamp omitted). -/
structure Order where
  buyer_id : ℕ
  product_id : ℕ
  amount_cents : ℤ
  commission_cents : ℤ
deriving DecidableEq

/-- Row of the `PayoutRequest` model (lines 131-137; timestamp omitted). -/
structure PayoutRequest where
  user_id : ℕ
  amount_cents : ℤ
  paid : Bool
deriving DecidableEq

/-- Session state visible to one handler invocation: every user row is
abstracted to its balance, keyed by user id (`User.query.get` on the
non-nullable `seller_id` foreign key always finds a row, and the
SQLAlchemy identity map makes two lookups of the same id alias one row,
which a single total function models exactly), plus the debt listing the
request addresses and the append-only record tables. -/
structure AppState where
  balances : ℕ → ℤ
  listing : DebtListing
  positions : List DebtPosition
  orders : List Order
  payout_requests : List PayoutRequest

/-- Apply `User.credit` to the row `uid` inside the session. -/
def AppState.credit (s : AppState) (uid : ℕ) (cents : ℤ) : AppState :=
  { s with balances := fun u => if u = uid then s.balances u + cents else s.balances u }

/-- Apply `User.debit` to the row `uid` inside the session. -/
def AppState.debit (s : AppState) (uid : ℕ) (cents : ℤ) : AppState :=
  { s with balances := fun u => if u = uid then s.balances u - cents else s.balances u }

/-- Handler `product_buy` (`/product/<id>/buy`, lines 383-402), entered
after the login check and `get_or_404` succeed; `p` is the fetched product
and `buyer` is the id of `g.user`.  The handler checks self-dealing, then
the balance, then debits the buyer, credits the seller the price minus the
commission, and records an `Order`. -/
def product_buy (s : AppState) (buyer : ℕ) (p : Product) : AppState × Option MarketError :=
  if p.seller_id = buyer then (s, some MarketError.SelfDealing)
  else
    let amount := p.price_cents
    let commission := calculate_commission_cents amount
    let seller_receive := amount - commission
    if s.balances buyer < amount then (s, some MarketError.InsufficientFunds)
    else
      let s1 := s.debit buyer amount
      let s2 := s1.credit p.seller_id seller_receive
      ({ s2 with orders := s2.orders ++ [⟨buyer, p.id, amount, commission⟩] }, none)

/-- Handler `debt_buy` (`/debt/<id>/buy`, lines 439-486), entered after the
login check, `get_or_404` and `Decimal` parsing succeed; `cents` is the
parsed `int(dec*100)` and the listing acted on is `s.listing`.  Faithful
to the source: the only guard is the balance check — there is no check
that `cents` is positive and no check against `investor = seller_id`.
After debiting the investor, adding a position and crediting the seller,
the handler adds `cents` to the running total and applies the inline rate
block to the fraction `total / target`, where `target` is
`d.target_amount_cents or 1` (so a stored 0 becomes 1; the subsequent
`if target else 0` guard in the source is then dead, since `target` is
never zero, and the division below is always by a nonzero value). -/
def debt_buy (s : AppState) (investor : ℕ) (cents : ℤ) : AppState × Option MarketError :=
  let d := s.listing
  if s.balances investor < cents then (s, some MarketError.InsufficientFunds)
  else
    let s1 := s.debit investor cents
    let pos : DebtPosition := ⟨investor, d.id, cents, true⟩
    let commission := calculate_commission_cents cents
    let seller_receive := cents - commission
    let s2 := s1.credit d.seller_id seller_receive
    let total2 := d.total_invested_cents + cents
    let target : ℤ := if d.target_amount_cents = 0 then 1 else d.target_amount_cents
    let r : ℚ := (total2 : ℚ) / (target : ℚ)
    let d2 := { d with total_invested_cents := total2,
                       current_rate_percent := next_rate d.current_rate_percent r }
    ({ s2 with listing := d2, positions := s2.positions ++ [pos] }, none)

/-- Handler `request_payout` (`/request-payout`, lines 514-531), entered
after the login check and parsing; it checks the balance, debits
immediately ("to avoid double claiming") and records the request. -/
def request_payout (s : AppState) (uid : ℕ) (cents : ℤ) : AppState × Option MarketError :=
  if s.balances uid < cents then (s, some MarketError.InsufficientFunds)
  else
    let s1 := s.debit uid cents
    ({ s1 with payout_requests := s1.payout_requests ++ [⟨uid, cents, false⟩] }, none)

/-- Iterate `debt_buy` over a list of (investor, cents) requests against
the session listing, stopping at the first aborted request. -/
def investSeq : AppState → List (ℕ × ℤ) → AppState × Option MarketError
  | s, [] => (s, none)
  | s, (i, c) :: rest =>
      match debt_buy s i c with
      | (s1, none) => investSeq s1 rest
      | (s1, some e) => (s1, some e)

/-- Listing used by the concrete scenarios: seller id 2, principal and
target 100000 cents, nothing invested yet, current rate 0.10. -/
def exListing : DebtListing :=
  ⟨7, "loan", 100000, 1/10, 2, 100000, 0, 1/10⟩

/-- Session in which every user holds 1000 cents and `exListing` is live. -/
def exState : AppState :=
  ⟨fun _ => 1000, exListing, [], [], []⟩

/-- Session in which every user holds 0 cents and `exListing` is live. -/
def zeroState : AppState :=
  ⟨fun _ => 0, exListing, [], [], []⟩

/-- Product priced at 1200 cents, sold by user 2. -/
def exProduct : Product :=
  ⟨5, "gadget", 1200, 2⟩

/-- C10: every successful registration creates the new user with a balance
of exactly 1000 cents (the $10 demo starting grant), not zero. -/
theorem register_starting_balance (username : String) :
    (register_user username).balance_cents = 1000 := rfl

/-- C8: for every buyer distinct from the seller whose balance is strictly
below the product price, `product_buy` aborts with `InsufficientFunds`
and the session state is returned unchanged: no balance moves and no
`Order` is created. -/
theorem product_buy_insufficient_funds (s : AppState) (buyer : ℕ) (p : Product)
    (hsel : buyer ≠ p.seller_id) (hbal : s.balances buyer < p.price_cents) :
    product_buy s buyer p = (s, some MarketError.InsufficientFunds) := by
  simp [product_buy, Ne.symm hsel, hbal]

/-- Witness for C8 at the spec scenario: buyer 1 holds 1000 cents, the
product costs 1200 cents. -/
theorem product_buy_insufficient_funds_witness :
    product_buy exState 1 exProduct = (exState, some MarketError.InsufficientFunds) :=
  product_buy_insufficient_funds exState 1 exProduct (by decide) (by decide)

/-- Commission never exceeds a positive amount: with `amount = 20 q + r`,
`0 ≤ r < 20`, the rounded value is at most `q + 1 ≤ amount`. -/
theorem calculate_commission_cents_le (cents : ℤ) (h : 0 < cents) :
    calculate_commission_cents cents ≤ cents := by
  simp only [calculate_commission_cents]
  split_ifs <;> omega

/-- C1: for every debt investment that passes the handler checks and
commits, the amount debited from the investor equals the amount credited
to the seller plus the commission computed on that amount, exactly in
integer cents. -/
theorem debt_buy_conservation (s : AppState) (investor : ℕ) (cents : ℤ)
    (hsel : investor ≠ s.listing.seller_id)
    (hok : (debt_buy s investor cents).2 = none) :
    s.balances investor - (debt_buy s investor cents).1.balances investor =
      ((debt_buy s investor cents).1.balances s.listing.seller_id -
        s.balances s.listing.seller_id) + calculate_commission_cents cents := by
  by_cases hb : s.balances investor < cents
  · simp [debt_buy, hb] at hok
  · simp [debt_buy, hb, AppState.credit, AppState.debit, hsel, Ne.symm hsel]

/-- Witness for C1: investor 1 invests 100 cents into the listing of
seller 2; the 100 cents debited split into 95 credited and 5 commission. -/
theorem debt_buy_conservation_witness :
    exState.balances 1 - (debt_buy exState 1 100).1.balances 1 =
      ((debt_buy exState 1 100).1.balances 2 - exState.balances 2) +
        calculate_commission_cents 100 :=
  debt_buy_conservation exState 1 100 (by decide) (by decide)

/-- C2: the `product_buy` handler does reject a purchase of an own product,
but the `debt_buy` handler has no self-dealing check at all: seller 2,
holding 1000 cents, successfully invests 100 cents into the own listing.
The handler debits and credits the same row (net loss 5 cents commission)
and creates a position, instead of failing with `SelfDealing` and
performing no mutation. -/
theorem debt_buy_self_dealing_completes :
    exState.listing.seller_id = 2 ∧
    product_buy exState 2 exProduct = (exState, some MarketError.SelfDealing) ∧
    (debt_buy exState 2 100).2 = none ∧
    (debt_buy exState 2 100).1.balances 2 = 995 ∧
    (debt_buy exState 2 100).1.positions.length = 1 :=
  ⟨by decide, rfl, by decide, by decide, by decide⟩

/-- C3: the `debt_buy` handler accepts a non-positive amount: with every
balance at 0 cents, an investment of -100 cents passes the balance check
(`0 < -100` is false), completes, raises the investor balance to +100,
drives the seller balance to -95 (credit of `-100 - (-5)`), records a
position of principal -100 and lowers the running total by 100 — instead
of failing with `InvalidAmount` and performing no mutation. -/
theorem debt_buy_negative_amount_completes :
    (debt_buy zeroState 1 (-100)).2 = none ∧
    (debt_buy zeroState 1 (-100)).1.balances 1 = 100 ∧
    (debt_buy zeroState 1 (-100)).1.balances 2 = -95 ∧
    (debt_buy zeroState 1 (-100)).1.listing.total_invested_cents = -100 ∧
    (debt_buy zeroState 1 (-100)).1.positions.length = 1 :=
  ⟨by decide, by decide, by decide, by decide, by decide⟩

/-- A `debt_buy` call commits exactly when the balance check passes. -/
theorem debt_buy_ok_iff (s : AppState) (i : ℕ) (c : ℤ) :
    (debt_buy s i c).2 = none ↔ ¬ s.balances i < c := by
  by_cases h : s.balances i < c <;> simp [debt_buy, h]

/-- A committed `debt_buy` adds exactly its amount to the running total. -/
theorem debt_buy_listing_total (s : AppState) (i : ℕ) (c : ℤ)
    (h : ¬ s.balances i < c) :
    (debt_buy s i c).1.listing.total_invested_cents =
      s.listing.total_invested_cents + c := by
  simp [debt_buy, h]

/-- Unfolding step for `investSeq` when the head request commits. -/
theorem investSeq_cons (s : AppState) (i : ℕ) (c : ℤ) (rest : List (ℕ × ℤ))
    (h : ¬ s.balances i < c) :
    investSeq s ((i, c) :: rest) = investSeq (debt_buy s i c).1 rest := by
  have hsnd : (debt_buy s i c).2 = none := by simp [debt_buy, h]
  rcases hdb : debt_buy s i c with ⟨s1, e⟩
  rw [hdb] at hsnd
  simp only at hsnd
  subst hsnd
  simp only [investSeq, hdb]

/-- Running total after a sequence of committed investments: the initial
total plus the sum of the invested amounts. -/
theorem investSeq_total (s : AppState) (ops : List (ℕ × ℤ))
    (hok : (investSeq s ops).2 = none) :
    (investSeq s ops).1.listing.total_invested_cents =
      s.listing.total_invested_cents + (ops.map Prod.snd).sum := by
  induction ops generalizing s with
  | nil => simp [investSeq]
  | cons hd rest ih =>
      obtain ⟨i, c⟩ := hd
      by_cases hb : s.balances i < c
      · rw [show investSeq s ((i, c) :: rest) = (s, some MarketError.InsufficientFunds) by
          simp only [investSeq, debt_buy, if_pos hb]] at hok
        simp at hok
      · rw [investSeq_cons s i c rest hb] at hok ⊢
        rw [ih _ hok, debt_buy_listing_total s i c hb]
        simp only [List.map_cons, List.sum_cons]
        ring

/-- C4 (amended): after a sequence of completed investments the running
total equals the initial total plus the sum of the invested amounts (this
holds for any accepted amounts); the total never decreases provided each
amount is non-negative (the handler also accepts negative amounts, which
decrease it); and no other core operation touches the listing. -/
theorem total_invested_sum_and_monotone (s : AppState) (ops : List (ℕ × ℤ))
    (hok : (investSeq s ops).2 = none) :
    ((investSeq s ops).1.listing.total_invested_cents =
       s.listing.total_invested_cents + (ops.map Prod.snd).sum) ∧
    ((∀ p ∈ ops, 0 ≤ p.2) →
       s.listing.total_invested_cents ≤
         (investSeq s ops).1.listing.total_invested_cents) ∧
    (∀ buyer p, (product_buy s buyer p).1.listing = s.listing) ∧
    (∀ uid cents, (request_payout s uid cents).1.listing = s.listing) := by
  refine ⟨investSeq_total s ops hok, ?_, ?_, ?_⟩
  · intro hpos
    have hsum : 0 ≤ (ops.map Prod.snd).sum := by
      refine List.sum_nonneg ?_
      intro x hx
      obtain ⟨p, hp, rfl⟩ := List.mem_map.mp hx
      exact hpos p hp
    have htot := investSeq_total s ops hok
    linarith
  · intro buyer p
    simp only [product_buy, AppState.credit, AppState.debit]
    split_ifs <;> rfl
  · intro uid cents
    simp only [request_payout, AppState.debit]
    split_ifs <;> rfl

/-- Witness for C4: two investments of 100 and 200 cents raise the total
from 0 to 300. -/
theorem total_invested_sum_and_monotone_witness :
    ((investSeq exState [(1, 100), (3, 200)]).1.listing.total_invested_cents =
       exState.listing.total_invested_cents +
         (([(1, 100), (3, 200)] : List (ℕ × ℤ)).map Prod.snd).sum) ∧
    exState.listing.total_invested_cents ≤
      (investSeq exState [(1, 100), (3, 200)]).1.listing.total_invested_cents :=
  ⟨(total_invested_sum_and_monotone exState [(1, 100), (3, 200)] (by decide)).1,
   (total_invested_sum_and_monotone exState [(1, 100), (3, 200)] (by decide)).2.1
     (by decide)⟩

/-- Listing that already holds 500 cents of investment. -/
def fundedListing : DebtListing :=
  ⟨8, "funded loan", 100000, 1/10, 2, 100000, 500, 1/10⟩

/-- Session with every balance at 0 cents and `fundedListing` live. -/
def fundedState : AppState :=
  ⟨fun _ => 0, fundedListing, [], [], []⟩

/-- Counterexample to C4 as stated: a completed investment of -100 cents
(accepted because the handler never checks positivity) lowers
`total_invested_cents` from 500 to 400, so the total is not monotonically
non-decreasing across operations. -/
theorem total_invested_decreases_cex :
    (debt_buy fundedState 1 (-100)).2 = none ∧
    (debt_buy fundedState 1 (-100)).1.listing.total_invested_cents <
      fundedState.listing.total_invested_cents :=
  ⟨by decide, by decide⟩

/-- Counterexample to C5 as stated: with the current rate exactly at the
cap 1.0 (inside `[rate_floor, rate_cap]`) and the non-negative ratio 0.3,
the `0.2 ≤ ratio < 0.5` branch applies only the floor clamp, so the
resulting rate is 1.05 — strictly above the 1.0 cap (and above the 0.95
cap of other variants as well). -/
theorem next_rate_exceeds_cap_cex :
    (1/10000 : ℚ) ≤ 1 ∧ (1 : ℚ) ≤ 1 ∧ (0 : ℚ) ≤ 3/10 ∧
      1 < next_rate 1 (3/10) := by
  norm_num [next_rate]

set_option maxHeartbeats 1000000 in
/-- C5 (amended): `next_rate` is a pure function of its two arguments; for
a current rate within `[0.0001, 1.0]` and any ratio the result is always
at least the floor 0.0001 and at most 1.05, and it is at most the cap 1.0
in every bucket except `0.2 ≤ ratio < 0.5`, whose branch applies only the
floor clamp and can push the rate up to `current + 0.05`. -/
theorem next_rate_bounds (c r : ℚ) (h0 : 1/10000 ≤ c) (h1 : c ≤ 1) :
    1/10000 ≤ next_rate c r ∧ next_rate c r ≤ 21/20 ∧
      ((r < 1/5 ∨ 1/2 ≤ r) → next_rate c r ≤ 1) := by
  refine ⟨?_, ?_, ?_⟩ <;> unfold next_rate
  · split_ifs <;> simp only [min_def, max_def] <;> split_ifs <;> linarith
  · split_ifs <;> simp only [min_def, max_def] <;> split_ifs <;> linarith
  · intro hr
    rcases hr with hr | hr <;>
      split_ifs <;> simp only [min_def, max_def] <;> split_ifs <;> linarith

/-- Witness for C5 at current rate 0.5 and ratio 0 (a bucket outside
`[0.2, 0.5)`, so the 1.0 cap applies). -/
theorem next_rate_bounds_witness :
    1/10000 ≤ next_rate (1/2) 0 ∧ next_rate (1/2) 0 ≤ 1 :=
  ⟨(next_rate_bounds (1/2) 0 (by norm_num) (by norm_num)).1,
   (next_rate_bounds (1/2) 0 (by norm_num) (by norm_num)).2.2
     (Or.inl (by norm_num))⟩

/-- Counterexample to C6 as stated: from the same current rate 1.0, the
smaller ratio 0.1 yields rate 1.0 (the raising branch is capped at 1.0)
while the larger ratio 0.3 yields 1.05 (its branch is uncapped), so the
less-funded call ends strictly below the more-funded one. -/
theorem next_rate_not_antitone_cex :
    (1/10 : ℚ) < 3/10 ∧ next_rate 1 (1/10) < next_rate 1 (3/10) := by
  norm_num [next_rate]

set_option maxHeartbeats 2000000 in
/-- C6 (amended): for every current rate within `[0, 0.95]` the rate update
is antitone in the funding ratio — a strictly smaller ratio never yields a
strictly smaller resulting rate.  Above 0.95 the uncapped
`0.2 ≤ ratio < 0.5` branch breaks the property. -/
theorem next_rate_antitone_below_cap (c ra rb : ℚ) (hc0 : 0 ≤ c)
    (hc1 : c ≤ 19/20) (hab : ra < rb) :
    next_rate c rb ≤ next_rate c ra := by
  unfold next_rate
  split_ifs <;> simp only [min_def, max_def] <;> split_ifs <;> linarith

/-- Witness for C6 at current rate 0.5 with ratios 0 and 1. -/
theorem next_rate_antitone_below_cap_witness :
    next_rate (1/2) 1 ≤ next_rate (1/2) 0 :=
  next_rate_antitone_below_cap (1/2) 0 1 (by norm_num) (by norm_num) (by norm_num)

/-- Counterexample to C9 as stated: after the scenario investment of 500
cents the listing rate is not 0.30. -/
theorem scenario_rate_not_030_cex :
    (debt_buy exState 1 500).2 = none ∧
    (debt_buy exState 1 500).1.listing.current_rate_percent ≠ 3/10 := by
  refine ⟨by decide, ?_⟩
  norm_num [debt_buy, exState, exListing, next_rate, AppState.credit,
    AppState.debit, calculate_commission_cents]

/-- C9 (amended): for the listing with target 100000 cents, nothing
invested and current rate 0.10, a committed investment of 500 cents gives
post-update ratio 0.005, which falls in the `ratio < 0.01` bucket, and the
listing rate becomes 0.90 (0.10 + 0.80, still below the 1.0 cap) — not
0.30. -/
theorem scenario_small_investment_rate :
    (debt_buy exState 1 500).2 = none ∧
    (debt_buy exState 1 500).1.listing.total_invested_cents = 500 ∧
    ((500 : ℚ) / 100000 < 1/100) ∧
    (debt_buy exState 1 500).1.listing.current_rate_percent = 9/10 := by
  refine ⟨by decide, by decide, by norm_num, ?_⟩
  norm_num [debt_buy, exState, exListing, next_rate, AppState.credit,
    AppState.debit, calculate_commission_cents]

/-- Counterexample to C7 as stated: starting from every balance at 0, a
debt investment of -100 cents (accepted: the balance check `0 < -100`
fails to trigger) credits the seller with `-100 - (-5) = -95` cents and
leaves the seller balance negative. -/
theorem debt_buy_negative_seller_balance_cex :
    zeroState.balances 2 = 0 ∧
    (debt_buy zeroState 1 (-100)).2 = none ∧
    (debt_buy zeroState 1 (-100)).1.balances 2 < 0 :=
  ⟨by decide, by decide, by decide⟩

/-- C7 (amended): every core operation aborts with `InsufficientFunds` and
no mutation whenever the acting balance is below the requested amount (for
a product purchase, when the buyer is not the seller, whose check comes
first); and starting from all-non-negative balances no core operation
leaves any balance negative, provided the debt amount or product price is
positive — the handlers also accept negative amounts, and those can drive
the seller balance negative (see the counterexample). -/
theorem core_ops_balance_guards :
    (∀ s : AppState, ∀ i : ℕ, ∀ c : ℤ, s.balances i < c →
       debt_buy s i c = (s, some MarketError.InsufficientFunds)) ∧
    (∀ s : AppState, ∀ b : ℕ, ∀ p : Product, b ≠ p.seller_id →
       s.balances b < p.price_cents →
       product_buy s b p = (s, some MarketError.InsufficientFunds)) ∧
    (∀ s : AppState, ∀ u : ℕ, ∀ c : ℤ, s.balances u < c →
       request_payout s u c = (s, some MarketError.InsufficientFunds)) ∧
    (∀ s : AppState, ∀ i : ℕ, ∀ c : ℤ, (∀ v, 0 ≤ s.balances v) → 0 < c →
       ∀ v, 0 ≤ (debt_buy s i c).1.balances v) ∧
    (∀ s : AppState, ∀ b : ℕ, ∀ p : Product, (∀ v, 0 ≤ s.balances v) →
       0 < p.price_cents → ∀ v, 0 ≤ (product_buy s b p).1.balances v) ∧
    (∀ s : AppState, ∀ u : ℕ, ∀ c : ℤ, (∀ v, 0 ≤ s.balances v) →
       ∀ v, 0 ≤ (request_payout s u c).1.balances v) := by
  refine ⟨?_, ?_, ?_, ?_, ?_, ?_⟩
  · intro s i c h
    simp [debt_buy, h]
  · intro s b p hne h
    simp [product_buy, Ne.symm hne, h]
  · intro s u c h
    simp [request_payout, h]
  · intro s i c hnn hc v
    by_cases hb : s.balances i < c
    · simp only [debt_buy, if_pos hb]
      exact hnn v
    · have hcm := calculate_commission_cents_le c hc
      have hbi := not_lt.mp hb
      simp only [debt_buy, if_neg hb, AppState.credit, AppState.debit]
      split_ifs with h1 h2 h3
      · subst h2; linarith
      · linarith [hnn v]
      · subst h3; linarith
      · exact hnn v
  · intro s b p hnn hp v
    by_cases hs : p.seller_id = b
    · simp only [product_buy, if_pos hs]
      exact hnn v
    · by_cases hb : s.balances b < p.price_cents
      · simp only [product_buy, if_neg hs, if_pos hb]
        exact hnn v
      · have hcm := calculate_commission_cents_le p.price_cents hp
        have hbb := not_lt.mp hb
        simp only [product_buy, if_neg hs, if_neg hb, AppState.credit, AppState.debit]
        split_ifs with h1 h2 h3
        · subst h2; exact absurd h1.symm hs
        · linarith [hnn v]
        · subst h3; linarith
        · exact hnn v
  · intro s u c hnn v
    by_cases hb : s.balances u < c
    · simp only [request_payout, if_pos hb]
      exact hnn v
    · simp only [request_payout, if_neg hb, AppState.debit]
      split_ifs with h1
      · subst h1; linarith [not_lt.mp hb]
      · exact hnn v

/-- Witness for C7: with every balance at 1000 cents, a 2000-cent
investment and a 2000-cent payout abort with `InsufficientFunds`, the
1200-cent product is refused, and committed operations keep balances
non-negative. -/
theorem core_ops_balance_guards_witness :
    debt_buy exState 1 2000 = (exState, some MarketError.InsufficientFunds) ∧
    product_buy exState 1 exProduct = (exState, some MarketError.InsufficientFunds) ∧
    request_payout exState 1 2000 = (exState, some MarketError.InsufficientFunds) ∧
    0 ≤ (debt_buy exState 1 100).1.balances 2 ∧
    0 ≤ (request_payout exState 1 500).1.balances 1 :=
  ⟨core_ops_balance_guards.1 exState 1 2000 (by decide),
   core_ops_balance_guards.2.1 exState 1 exProduct (by decide) (by decide),
   core_ops_balance_guards.2.2.1 exState 1 2000 (by decide),
   core_ops_balance_guards.2.2.2.1 exState 1 100
     (fun v => by norm_num [exState]) (by decide) 2,
   core_ops_balance_guards.2.2.2.2.2 exState 1 500
     (fun v => by norm_num [exState]) 1⟩
